import Mathlib

/-!
Shallow embedding of the `bevy_surface` repository's core:
the parametric surface sampler and triangulator (`src/surface.rs` and the
earlier snapshot in `src/main.rs`), the inverse-stereographic sphere charts
(`src/sphere.rs`), and the meromorphic ("Mero") rational-function evaluator
(`src/surface.rs`).

Modelling conventions:
  - `f32` scalars are modelled as real numbers (`ℝ`); the algorithms here
    are exact algebraic computations on their inputs.
  - `u32` grid counts and indices are modelled as `ℕ`.
  - The one IEEE-754 exception the code can hit is `Vec3::normalize` of a
    zero-length vector, which in `glam` computes `v * (1.0 / v.length())`
    and produces a non-finite (NaN) vector when the length is zero.  We
    model `normalize` as returning `Option Vec3`, with `none` standing for
    that non-finite result and `some u` for the finite unit vector `u`.
  - Rust `Vec` pushes inside the row-major `for` loops are modelled as
    `List.bind` / `List.map` over the same index ranges, in the same order.
-/

/-- 2D vector (`glam::Vec2`), modelled as a pair of reals. -/
abbrev Vec2 : Type := ℝ × ℝ

/-- 3D vector (`glam::Vec3`). -/
@[ext] structure Vec3 where
  x : ℝ
  y : ℝ
  z : ℝ

instance : Zero Vec3 := ⟨⟨0, 0, 0⟩⟩

instance : Add Vec3 := ⟨fun a b => ⟨a.x + b.x, a.y + b.y, a.z + b.z⟩⟩

instance : Sub Vec3 := ⟨fun a b => ⟨a.x - b.x, a.y - b.y, a.z - b.z⟩⟩

instance : SMul ℝ Vec3 := ⟨fun r v => ⟨r * v.x, r * v.y, r * v.z⟩⟩

/-- Cross product, `glam::Vec3::cross`. -/
def Vec3.cross (a b : Vec3) : Vec3 :=
  ⟨a.y * b.z - a.z * b.y, a.z * b.x - a.x * b.z, a.x * b.y - a.y * b.x⟩

/-- Squared Euclidean norm, `glam::Vec3::length_squared` (dot of self with self). -/
def Vec3.length_squared (v : Vec3) : ℝ := v.x * v.x + v.y * v.y + v.z * v.z

/-- Euclidean norm, `glam::Vec3::length`. -/
noncomputable def Vec3.length (v : Vec3) : ℝ := Real.sqrt v.length_squared

open Classical in
/-- `glam::Vec3::normalize`, i.e. `v * (1.0 / v.length())`.  When the length
is zero the IEEE result is non-finite (`0.0 * inf = NaN`); we model that
outcome as `none`. -/
noncomputable def Vec3.normalize (v : Vec3) : Option Vec3 :=
  if v.length = 0 then none else some ((1 / v.length) • v)

/-- Row-major grid node indices `(i, j)`, `i ∈ [0, c0]`, `j ∈ [0, c1]`:
the iteration order of the sampling loops in `parametric_surface`. -/
def gridIndices (c0 c1 : ℕ) : List (ℕ × ℕ) :=
  (List.range (c0 + 1)).flatMap fun i => (List.range (c1 + 1)).map fun j => (i, j)

/-- Two triangles pushed for cell `(i, j)` by `src/surface.rs` lines 86–91:
`[top_left, bottom_left, top_right]` then
`[top_right, bottom_left, bottom_right]` with that file's index formulas. -/
def surfaceCell (c1 i j : ℕ) : List (ℕ × ℕ × ℕ) :=
  let bottom_left := i * (c1 + 1) + j
  let top_left := i * (c1 + 1) + j + 1
  let bottom_right := (i + 1) * (c1 + 1) + j
  let top_right := (i + 1) * (c1 + 1) + j + 1
  [(top_left, bottom_left, top_right), (top_right, bottom_left, bottom_right)]

/-- Triangle list of `src/surface.rs` lines 84–93: the two triangles of each
cell, cells iterated row-major in `i` then `j`. -/
def surfaceTriangles (c0 c1 : ℕ) : List (ℕ × ℕ × ℕ) :=
  (List.range c0).flatMap fun i => (List.range c1).flatMap fun j =>
    surfaceCell c1 i j

/-- Two triangles pushed for cell `(i, j)` by `src/main.rs` lines 131–136:
same push order as `surfaceCell` but with `bottom_right = bottom_left + 1`
and `top_left = (i+1)*(count+1)+j`. -/
def mainCell (count i j : ℕ) : List (ℕ × ℕ × ℕ) :=
  let bottom_left := i * (count + 1) + j
  let bottom_right := i * (count + 1) + j + 1
  let top_left := (i + 1) * (count + 1) + j
  let top_right := (i + 1) * (count + 1) + j + 1
  [(top_left, bottom_left, top_right), (top_right, bottom_left, bottom_right)]

/-- Triangle list of `src/main.rs` lines 129–138 (square `count × count`
grid). -/
def mainTriangles (count : ℕ) : List (ℕ × ℕ × ℕ) :=
  (List.range count).flatMap fun i => (List.range count).flatMap fun j =>
    mainCell count i j

/-- Grid step along the first parameter axis in `parametric_surface`
(`src/surface.rs` line 58): `delta_x = (end - start).x / count0`. -/
noncomputable def delta_x (s e : Vec2) (c : ℕ × ℕ) : ℝ := (e.1 - s.1) / c.1

/-- Grid step along the second parameter axis (`src/surface.rs` line 59). -/
noncomputable def delta_y (s e : Vec2) (c : ℕ × ℕ) : ℝ := (e.2 - s.2) / c.2

/-- Probe offset of the normal estimator (`src/surface.rs` line 60):
`eps = f32::min(delta_x, delta_y) / 1e3`. -/
noncomputable def sampleEps (s e : Vec2) (c : ℕ × ℕ) : ℝ :=
  min (delta_x s e c) (delta_y s e c) / 1000

/-- Parameter-space point of grid node `(i, j)` (`src/surface.rs`
lines 64–66): `(start.x + i * delta_x, start.y + j * delta_y)`. -/
noncomputable def nodePoint (s e : Vec2) (c : ℕ × ℕ) (i j : ℕ) : Vec2 :=
  (s.1 + i * delta_x s e c, s.2 + j * delta_y s e c)

/-- Helper of `src/surface.rs` lines 21–23: `(b - a).cross(c - a)`. -/
def triangle_normal (a b c : Vec3) : Vec3 := (b - a).cross (c - a)

/-- Sum of the four finite-difference cross products about node `(i, j)`
(`src/surface.rs` lines 67–78): the surface map `f` is probed at the node
and at its four neighbours offset by `sampleEps` along each parameter axis. -/
noncomputable def crossSum (s e : Vec2) (c : ℕ × ℕ) (f : Vec2 → Vec3)
    (i j : ℕ) : Vec3 :=
  let eps := sampleEps s e c
  let z := nodePoint s e c i j
  let o := f z
  let a := f (z.1 + eps, z.2)
  let b := f (z.1, z.2 + eps)
  let c' := f (z.1 - eps, z.2)
  let d := f (z.1, z.2 - eps)
  triangle_normal o a b + triangle_normal o b c' +
    triangle_normal o c' d + triangle_normal o d a

/-- Stored normal of node `(i, j)` (`src/surface.rs` line 79):
the normalized sum of the four cross products. -/
noncomputable def normalAt (s e : Vec2) (c : ℕ × ℕ) (f : Vec2 → Vec3)
    (i j : ℕ) : Option Vec3 :=
  (crossSum s e c f i j).normalize

/-- The `Surface` struct of `src/surface.rs` lines 12–19.  `end_` models the
source field `end` (a reserved word here); `normals` entries are `Option`
because `normalize` can produce a non-finite vector. -/
structure Surface where
  start : Vec2
  end_ : Vec2
  count : ℕ × ℕ
  positions : List Vec3
  normals : List (Option Vec3)
  triangles : List (ℕ × ℕ × ℕ)

/-- The sampler `parametric_surface` of `src/surface.rs` lines 49–103.  The
single row-major loop pushing one position and one normal per node is
modelled as two maps over the same node list `gridIndices`; the triangle
loop is `surfaceTriangles`.  The function is total: the source performs no
validation of its inputs and always returns a full `Surface`. -/
noncomputable def parametric_surface (s e : Vec2) (c : ℕ × ℕ)
    (f : Vec2 → Vec3) : Surface where
  start := s
  end_ := e
  count := c
  positions := (gridIndices c.1 c.2).map fun ij => f (nodePoint s e c ij.1 ij.2)
  normals := (gridIndices c.1 c.2).map fun ij => normalAt s e c f ij.1 ij.2
  triangles := surfaceTriangles c.1 c.2

/-- The `plane` surface of `src/surface.rs` lines 180–182: `z.extend(0.0)`. -/
def plane (z : Vec2) : Vec3 := ⟨z.1, z.2, 0⟩

/-- Per-vertex texture coordinates (`compute_uvs`, `src/surface.rs`
lines 25–47): the uv map `f` evaluated at every grid node, in the same
row-major order as the sampler. -/
noncomputable def compute_uvs (surface : Surface) (f : Vec2 → Vec2) : List Vec2 :=
  (gridIndices surface.count.1 surface.count.2).map fun ij =>
    f (nodePoint surface.start surface.end_ surface.count ij.1 ij.2)

/-- Mesh topology tag (`bevy::render::pipeline::PrimitiveTopology`). -/
inductive PrimitiveTopology where
  | TriangleList : PrimitiveTopology
  | LineList : PrimitiveTopology
  | PointList : PrimitiveTopology
deriving DecidableEq

/-- Render mesh (`bevy::render::mesh::Mesh`): the three vertex attributes
are flattened into separate fields, and the index buffer is a flat list. -/
structure Mesh where
  primitive_topology : PrimitiveTopology
  positions : List Vec3
  normals : List (Option Vec3)
  uvs : List Vec2
  indices : List ℕ

/-- Wireframe index buffer (`src/surface.rs` lines 133–136): for each
triangle `t` push `[t[0], t[1], t[1], t[2], t[2], t[0]]`, undeduplicated. -/
def wireframe_indices (ts : List (ℕ × ℕ × ℕ)) : List ℕ :=
  ts.flatMap fun t => [t.1, t.2.1, t.2.1, t.2.2, t.2.2, t.1]

/-- `surface_to_wireframe` of `src/surface.rs` lines 127–147. -/
noncomputable def surface_to_wireframe (surface : Surface) (f : Vec2 → Vec2) :
    Mesh where
  primitive_topology := PrimitiveTopology.LineList
  positions := surface.positions
  normals := surface.normals
  uvs := compute_uvs surface f
  indices := wireframe_indices surface.triangles

/-- `surface_to_solid` of `src/surface.rs` lines 105–125: the index buffer
concatenates the triangles. -/
noncomputable def surface_to_solid (surface : Surface) (f : Vec2 → Vec2) :
    Mesh where
  primitive_topology := PrimitiveTopology.TriangleList
  positions := surface.positions
  normals := surface.normals
  uvs := compute_uvs surface f
  indices := surface.triangles.flatMap fun t => [t.1, t.2.1, t.2.2]

/-- The helper `cross` of `src/main.rs` lines 46–48 (same formula as
`triangle_normal` in `src/surface.rs`). -/
def main_cross (a b c : Vec3) : Vec3 := (b - a).cross (c - a)

/-- Stored normal of grid node `(i, j)` in the earlier sampler of
`src/main.rs` lines 101–127: the domain is `[0,1]²`, `delta = 1/count`,
`y = i * delta`, `x = j * delta`, and the four probes are offset by the
full grid step `delta` itself. -/
noncomputable def mainNormalAt (count : ℕ) (f : Vec2 → Vec3) (i j : ℕ) :
    Option Vec3 :=
  let delta : ℝ := 1 / count
  let y : ℝ := i * delta
  let x : ℝ := j * delta
  let o := f (x, y)
  let a := f (x + delta, y)
  let b := f (x, y + delta)
  let c := f (x - delta, y)
  let d := f (x, y - delta)
  (main_cross o a b + main_cross o b c + main_cross o c d +
    main_cross o d a).normalize

/-- Inverse stereographic chart `south_chart` of `src/sphere.rs`
lines 14–17, with `t = 2 / (1 + |z|²)`. -/
noncomputable def south_chart (z : Vec2) : Vec3 :=
  let t : ℝ := 2 / (1 + (z.1 * z.1 + z.2 * z.2))
  ⟨t * z.1, t * z.2, 1 - t⟩

/-- Inverse stereographic chart `north_chart` of `src/sphere.rs`
lines 19–22. -/
noncomputable def north_chart (z : Vec2) : Vec3 :=
  let t : ℝ := 2 / (1 + (z.1 * z.1 + z.2 * z.2))
  ⟨t * z.1, t * z.2, t - 1⟩

/-- `to_complex` of `src/surface.rs` lines 191–193. -/
def to_complex (z : Vec2) : ℂ := ⟨z.1, z.2⟩

/-- `from_complex` of `src/surface.rs` lines 195–197. -/
def from_complex (z : ℂ) : Vec2 := (z.re, z.im)

/-- `to_uv` of `src/surface.rs` lines 200–205: the source also computes the
argument `phi` and `frac = phi / (2π)` but discards them, returning
`Vec2::new(0.0, r)` with `r` the modulus. -/
noncomputable def to_uv (z : ℂ) : Vec2 := ((0 : ℝ), Complex.abs z)

/-- The uv map `identity` of `src/surface.rs` lines 207–209. -/
noncomputable def identity (z : Vec2) : Vec2 := to_uv (to_complex z)

/-- The `Mero` struct of `src/surface.rs` lines 211–215. -/
structure Mero where
  factor : ℂ
  zeros : List ℂ
  poles : List ℂ

/-- The accumulated value of `poly` (`src/surface.rs` lines 228–236):
start from `factor`, multiply by `z - p` for each zero `p` in order, then
by `1 / (z - p)` for each pole `p` in order. -/
noncomputable def mero_val (ps : Mero) (z : ℂ) : ℂ :=
  ps.poles.foldl (fun val p => val * (1 / (z - p)))
    (ps.zeros.foldl (fun val p => val * (z - p)) ps.factor)

/-- `poly` of `src/surface.rs` lines 227–238: evaluate the rational
function at `to_complex z` and encode the result through `to_uv`. -/
noncomputable def poly (ps : Mero) (z : Vec2) : Vec2 :=
  to_uv (mero_val ps (to_complex z))


open Classical in
/-- Test map for the normal-estimation probes: zero away from the two grid
points `(1, 0)` and `(0, 1)`, where it takes the two unit values whose cross
product is `(0, 0, 1)`. -/
noncomputable def probeBump : Vec2 → Vec3 := fun p =>
  if p = ((1 : ℝ), (0 : ℝ)) then ⟨1, 0, 0⟩
  else if p = ((0 : ℝ), (1 : ℝ)) then ⟨0, 1, 0⟩
  else ⟨0, 0, 0⟩

/-- Concrete `Mero`: factor `1`, one zero at `2`, one pole at `3`. -/
noncomputable def meroEx : Mero := { factor := 1, zeros := [2], poles := [3] }

@[simp] lemma Vec3.zero_def : (0 : Vec3) = ⟨0, 0, 0⟩ := rfl

@[simp] lemma Vec3.add_def (a b : Vec3) :
    a + b = ⟨a.x + b.x, a.y + b.y, a.z + b.z⟩ := rfl

@[simp] lemma Vec3.sub_def (a b : Vec3) :
    a - b = ⟨a.x - b.x, a.y - b.y, a.z - b.z⟩ := rfl

@[simp] lemma Vec3.smul_def (r : ℝ) (v : Vec3) :
    r • v = ⟨r * v.x, r * v.y, r * v.z⟩ := rfl

/-! Helper lemmas about flattened row-major loops. -/

lemma flatMap_range_length {α : Type} (g : ℕ → List α) (k : ℕ)
    (h : ∀ t, (g t).length = k) :
    ∀ m : ℕ, ((List.range m).flatMap g).length = m * k := by
  intro m
  induction m with
  | zero => simp
  | succ n ih =>
      rw [List.range_succ, List.flatMap_append]
      simp [ih, h, Nat.succ_mul]

lemma flatMap_range_getElem? {α : Type} (g : ℕ → List α) (k : ℕ)
    (h : ∀ t, (g t).length = k) :
    ∀ m i j : ℕ, i < m → j < k →
      ((List.range m).flatMap g)[i * k + j]? = (g i)[j]? := by
  intro m
  induction m with
  | zero => intro i j hi _; exact absurd hi (Nat.not_lt_zero i)
  | succ n ih =>
      intro i j hi hj
      rw [List.range_succ, List.flatMap_append]
      rcases Nat.lt_or_ge i n with hin | hin
      · rw [List.getElem?_append_left]
        · exact ih i j hin hj
        · calc i * k + j < i * k + k := by omega
            _ = (i + 1) * k := (Nat.succ_mul i k).symm
            _ ≤ n * k := Nat.mul_le_mul_right k hin
            _ = ((List.range n).flatMap g).length := (flatMap_range_length g k h n).symm
      · have hieq : i = n := by omega
        subst hieq
        have hlen : ((List.range i).flatMap g).length = i * k :=
          flatMap_range_length g k h i
        rw [List.getElem?_append_right (by rw [hlen]; exact Nat.le_add_right _ _),
          hlen]
        simp

lemma gridIndices_length (c0 c1 : ℕ) :
    (gridIndices c0 c1).length = (c0 + 1) * (c1 + 1) :=
  flatMap_range_length _ (c1 + 1) (fun t => by simp) (c0 + 1)

lemma gridIndices_getElem (c0 c1 i j : ℕ) (hi : i ≤ c0) (hj : j ≤ c1) :
    (gridIndices c0 c1)[i * (c1 + 1) + j]? = some (i, j) := by
  unfold gridIndices
  rw [flatMap_range_getElem? _ (c1 + 1) (fun t => by simp) (c0 + 1) i j
    (by omega) (by omega)]
  rw [List.getElem?_map, List.getElem?_range (by omega)]
  rfl

lemma surfaceTriangles_length (c0 c1 : ℕ) :
    (surfaceTriangles c0 c1).length = 2 * (c0 * c1) := by
  unfold surfaceTriangles
  rw [flatMap_range_length (fun i => (List.range c1).flatMap fun j => surfaceCell c1 i j)
    (c1 * 2)
    (fun t => flatMap_range_length (fun j => surfaceCell c1 t j) 2 (fun u => rfl) c1) c0]
  ring

lemma mainTriangles_length (count : ℕ) :
    (mainTriangles count).length = 2 * (count * count) := by
  unfold mainTriangles
  rw [flatMap_range_length (fun i => (List.range count).flatMap fun j => mainCell count i j)
    (count * 2)
    (fun t => flatMap_range_length (fun j => mainCell count t j) 2 (fun u => rfl) count)
    count]
  ring

lemma surfaceTriangles_getElem_fst (c0 c1 i j : ℕ) (hi : i < c0) (hj : j < c1) :
    (surfaceTriangles c0 c1)[2 * (i * c1 + j)]? =
      some (i * (c1 + 1) + j + 1, i * (c1 + 1) + j, (i + 1) * (c1 + 1) + j + 1) := by
  unfold surfaceTriangles
  rw [show 2 * (i * c1 + j) = i * (c1 * 2) + (j * 2 + 0) by ring]
  rw [flatMap_range_getElem?
    (fun i => (List.range c1).flatMap fun j => surfaceCell c1 i j) (c1 * 2)
    (fun t => flatMap_range_length (fun j => surfaceCell c1 t j) 2 (fun u => rfl) c1)
    c0 i (j * 2 + 0) hi (by omega)]
  rw [flatMap_range_getElem? (fun j => surfaceCell c1 i j) 2 (fun u => rfl)
    c1 j 0 hj (by omega)]
  rfl

lemma surfaceTriangles_getElem_snd (c0 c1 i j : ℕ) (hi : i < c0) (hj : j < c1) :
    (surfaceTriangles c0 c1)[2 * (i * c1 + j) + 1]? =
      some ((i + 1) * (c1 + 1) + j + 1, i * (c1 + 1) + j, (i + 1) * (c1 + 1) + j) := by
  unfold surfaceTriangles
  rw [show 2 * (i * c1 + j) + 1 = i * (c1 * 2) + (j * 2 + 1) by ring]
  rw [flatMap_range_getElem?
    (fun i => (List.range c1).flatMap fun j => surfaceCell c1 i j) (c1 * 2)
    (fun t => flatMap_range_length (fun j => surfaceCell c1 t j) 2 (fun u => rfl) c1)
    c0 i (j * 2 + 1) hi (by omega)]
  rw [flatMap_range_getElem? (fun j => surfaceCell c1 i j) 2 (fun u => rfl)
    c1 j 1 hj (by omega)]
  rfl

lemma mainTriangles_getElem_fst (count i j : ℕ) (hi : i < count) (hj : j < count) :
    (mainTriangles count)[2 * (i * count + j)]? =
      some ((i + 1) * (count + 1) + j, i * (count + 1) + j,
        (i + 1) * (count + 1) + j + 1) := by
  unfold mainTriangles
  rw [show 2 * (i * count + j) = i * (count * 2) + (j * 2 + 0) by ring]
  rw [flatMap_range_getElem?
    (fun i => (List.range count).flatMap fun j => mainCell count i j) (count * 2)
    (fun t => flatMap_range_length (fun j => mainCell count t j) 2 (fun u => rfl) count)
    count i (j * 2 + 0) hi (by omega)]
  rw [flatMap_range_getElem? (fun j => mainCell count i j) 2 (fun u => rfl)
    count j 0 hj (by omega)]
  rfl

lemma mainTriangles_getElem_snd (count i j : ℕ) (hi : i < count) (hj : j < count) :
    (mainTriangles count)[2 * (i * count + j) + 1]? =
      some ((i + 1) * (count + 1) + j + 1, i * (count + 1) + j,
        i * (count + 1) + j + 1) := by
  unfold mainTriangles
  rw [show 2 * (i * count + j) + 1 = i * (count * 2) + (j * 2 + 1) by ring]
  rw [flatMap_range_getElem?
    (fun i => (List.range count).flatMap fun j => mainCell count i j) (count * 2)
    (fun t => flatMap_range_length (fun j => mainCell count t j) 2 (fun u => rfl) count)
    count i (j * 2 + 1) hi (by omega)]
  rw [flatMap_range_getElem? (fun j => mainCell count i j) 2 (fun u => rfl)
    count j 1 hj (by omega)]
  rfl

lemma parametric_surface_positions_length (s e : Vec2) (c0 c1 : ℕ)
    (f : Vec2 → Vec3) :
    (parametric_surface s e (c0, c1) f).positions.length = (c0 + 1) * (c1 + 1) := by
  simp [parametric_surface, gridIndices_length]

lemma parametric_surface_normals_length (s e : Vec2) (c0 c1 : ℕ)
    (f : Vec2 → Vec3) :
    (parametric_surface s e (c0, c1) f).normals.length = (c0 + 1) * (c1 + 1) := by
  simp [parametric_surface, gridIndices_length]

lemma parametric_surface_normals_getElem (s e : Vec2) (c0 c1 : ℕ)
    (f : Vec2 → Vec3) (i j : ℕ) (hi : i ≤ c0) (hj : j ≤ c1) :
    (parametric_surface s e (c0, c1) f).normals[i * (c1 + 1) + j]? =
      some (normalAt s e (c0, c1) f i j) := by
  simp only [parametric_surface, List.getElem?_map,
    gridIndices_getElem c0 c1 i j hi hj]
  rfl

lemma wireframe_indices_length (ts : List (ℕ × ℕ × ℕ)) :
    (wireframe_indices ts).length = 6 * ts.length := by
  induction ts with
  | nil => rfl
  | cons t ts ih =>
      simp only [wireframe_indices, List.flatMap_cons] at ih ⊢
      simp [ih]
      omega

lemma vec3_length_zero : (0 : Vec3).length = 0 := by
  simp [Vec3.length, Vec3.length_squared]

lemma vec3_normalize_zero : (0 : Vec3).normalize = none := by
  unfold Vec3.normalize
  rw [if_pos vec3_length_zero]

lemma vec3_normalize_zero_mk : (⟨0, 0, 0⟩ : Vec3).normalize = none :=
  vec3_normalize_zero

lemma crossSum_const (s e : Vec2) (c : ℕ × ℕ) (v : Vec3) (i j : ℕ) :
    crossSum s e c (fun _ => v) i j = 0 := by
  simp only [crossSum, triangle_normal, Vec3.cross, Vec3.sub_def, Vec3.add_def,
    Vec3.zero_def]
  ext <;> ring

lemma foldl_mul_map (g : ℂ → ℂ) :
    ∀ (l : List ℂ) (a : ℂ), l.foldl (fun v p => v * g p) a = a * (l.map g).prod := by
  intro l
  induction l with
  | nil => intro a; simp
  | cons q qs ih => intro a; simp [ih, mul_assoc]

/-! Claim theorems. -/

/-- C1 (counterexample): on the 1×1 grid the triangulator of
`src/surface.rs` emits `[(1, 0, 3), (3, 0, 2)]`, not the claimed
`[tl, bl, tr] = (2, 0, 3)` and `[tr, bl, br] = (3, 0, 1)` with
`bl = 0`, `br = 1`, `tl = 2`, `tr = 3`. -/
theorem surface_triangles_differ_from_claim :
    surfaceTriangles 1 1 = [(1, 0, 3), (3, 0, 2)] ∧
    surfaceTriangles 1 1 ≠ [(2, 0, 3), (3, 0, 1)] := by
  exact ⟨by decide, by decide⟩

/-- C1 (amended): iterating cells row-major in `i` then `j`, the `main.rs`
triangulator emits exactly the claimed `[tl, bl, tr]` and `[tr, bl, br]`
with `bl = i*(cols+1)+j`, `br = bl+1`, `tl = (i+1)*(cols+1)+j`,
`tr = tl+1`; the `surface.rs` triangulator instead emits `[bl+1, bl, tr]`
and `[tr, bl, tl]` — the same two triangles of each cell but with the roles
of the `+1` step and the `+(cols+1)` step exchanged. -/
theorem triangles_per_cell (rows cols n i j : ℕ) (hir : i < rows)
    (hjc : j < cols) (hin : i < n) (hjn : j < n) :
    ((mainTriangles n)[2 * (i * n + j)]? =
        some ((i + 1) * (n + 1) + j, i * (n + 1) + j, (i + 1) * (n + 1) + j + 1) ∧
      (mainTriangles n)[2 * (i * n + j) + 1]? =
        some ((i + 1) * (n + 1) + j + 1, i * (n + 1) + j, i * (n + 1) + j + 1)) ∧
    ((surfaceTriangles rows cols)[2 * (i * cols + j)]? =
        some (i * (cols + 1) + j + 1, i * (cols + 1) + j,
          (i + 1) * (cols + 1) + j + 1) ∧
      (surfaceTriangles rows cols)[2 * (i * cols + j) + 1]? =
        some ((i + 1) * (cols + 1) + j + 1, i * (cols + 1) + j,
          (i + 1) * (cols + 1) + j)) :=
  ⟨⟨mainTriangles_getElem_fst n i j hin hjn,
    mainTriangles_getElem_snd n i j hin hjn⟩,
   ⟨surfaceTriangles_getElem_fst rows cols i j hir hjc,
    surfaceTriangles_getElem_snd rows cols i j hir hjc⟩⟩

/-- C1 (witness): the amended statement applied at the 1×1 grid, cell
`(0, 0)`. -/
theorem triangles_per_cell_witness :
    ((mainTriangles 1)[0]? = some (2, 0, 3) ∧
      (mainTriangles 1)[1]? = some (3, 0, 1)) ∧
    ((surfaceTriangles 1 1)[0]? = some (1, 0, 3) ∧
      (surfaceTriangles 1 1)[1]? = some (3, 0, 2)) := by
  simpa using triangles_per_cell 1 1 1 0 0 (by decide) (by decide)
    (by decide) (by decide)

/-- C2: for positive resolution and a non-degenerate domain the sampler
returns as many normals as positions, namely
`(resolution.x + 1) * (resolution.y + 1)`. -/
theorem sample_lengths (s e : Vec2) (c0 c1 : ℕ) (f : Vec2 → Vec3)
    (hs1 : s.1 ≠ e.1) (hs2 : s.2 ≠ e.2) (h0 : 0 < c0) (h1 : 0 < c1) :
    (parametric_surface s e (c0, c1) f).positions.length =
      (parametric_surface s e (c0, c1) f).normals.length ∧
    (parametric_surface s e (c0, c1) f).positions.length =
      (c0 + 1) * (c1 + 1) := by
  rw [parametric_surface_positions_length, parametric_surface_normals_length]
  exact ⟨rfl, rfl⟩

/-- C2 (witness): the statement applied to the plane on `[0,1]²` with
resolution `(1, 1)`: `2 * 2 = 4` positions and normals. -/
theorem sample_lengths_witness :
    (parametric_surface ((0 : ℝ), 0) ((1 : ℝ), 1) (1, 1) plane).positions.length =
      (parametric_surface ((0 : ℝ), 0) ((1 : ℝ), 1) (1, 1) plane).normals.length ∧
    (parametric_surface ((0 : ℝ), 0) ((1 : ℝ), 1) (1, 1) plane).positions.length =
      4 := by
  simpa using sample_lengths ((0 : ℝ), 0) ((1 : ℝ), 1) 1 1 plane
    (by norm_num) (by norm_num) (by norm_num) (by norm_num)

/-- C3: every index of every emitted triangle is strictly below
`positions.len()`. -/
theorem triangle_indices_in_bounds (s e : Vec2) (c0 c1 : ℕ) (f : Vec2 → Vec3)
    (h0 : 0 < c0) (h1 : 0 < c1) (t : ℕ × ℕ × ℕ)
    (ht : t ∈ (parametric_surface s e (c0, c1) f).triangles) :
    t.1 < (parametric_surface s e (c0, c1) f).positions.length ∧
    t.2.1 < (parametric_surface s e (c0, c1) f).positions.length ∧
    t.2.2 < (parametric_surface s e (c0, c1) f).positions.length := by
  simp only [parametric_surface_positions_length]
  have ht' : t ∈ surfaceTriangles c0 c1 := ht
  simp only [surfaceTriangles, List.mem_flatMap, List.mem_range] at ht'
  obtain ⟨i, hi, j, hj, hmem⟩ := ht'
  have ha : i * (c1 + 1) ≤ c0 * (c1 + 1) := Nat.mul_le_mul_right _ (by omega)
  have hb : (i + 1) * (c1 + 1) ≤ c0 * (c1 + 1) := Nat.mul_le_mul_right _ (by omega)
  have hc : (c0 + 1) * (c1 + 1) = c0 * (c1 + 1) + (c1 + 1) := by ring
  simp only [surfaceCell, List.mem_cons, List.not_mem_nil, or_false] at hmem
  rcases hmem with h | h <;> subst h <;> refine ⟨?_, ?_, ?_⟩ <;> simp <;> omega

/-- C3 (witness): applied to the plane on `[0,1]²` with resolution `(1, 1)`
and the triangle `(1, 0, 3)` of that surface. -/
theorem triangle_indices_in_bounds_witness :
    (1, 0, 3) ∈ (parametric_surface ((0 : ℝ), 0) ((1 : ℝ), 1) (1, 1)
      plane).triangles ∧
    (1 < (parametric_surface ((0 : ℝ), 0) ((1 : ℝ), 1) (1, 1)
        plane).positions.length ∧
      0 < (parametric_surface ((0 : ℝ), 0) ((1 : ℝ), 1) (1, 1)
        plane).positions.length ∧
      3 < (parametric_surface ((0 : ℝ), 0) ((1 : ℝ), 1) (1, 1)
        plane).positions.length) := by
  have hm : ((1 : ℕ), (0 : ℕ), (3 : ℕ)) ∈ surfaceTriangles 1 1 := by decide
  exact ⟨hm, triangle_indices_in_bounds ((0 : ℝ), 0) ((1 : ℝ), 1) 1 1 plane
    (by norm_num) (by norm_num) (1, 0, 3) hm⟩

/-- C5 (counterexample): on the fully degenerate input `start = end = (0,0)`
and resolution `(0, 0)` the sampler still returns a `Surface` (with one
position and one normal); there is no `InvalidDomain` error path in the
code. -/
theorem degenerate_domain_returns_surface :
    (parametric_surface ((0 : ℝ), 0) ((0 : ℝ), 0) (0, 0) plane).positions.length
        = 1 ∧
    (parametric_surface ((0 : ℝ), 0) ((0 : ℝ), 0) (0, 0) plane).normals.length
        = 1 := by
  rw [parametric_surface_positions_length, parametric_surface_normals_length]
  exact ⟨rfl, rfl⟩

/-- C5 (amended): the sampler performs no input validation: for every
`start`, `end` and resolution — including degenerate ones — it totals and
returns a full `Surface` with `(c0+1)*(c1+1)` positions and normals and
`2*c0*c1` triangles; no error is ever reported. -/
theorem sampler_total_no_error (s e : Vec2) (c0 c1 : ℕ) (f : Vec2 → Vec3) :
    (parametric_surface s e (c0, c1) f).positions.length =
      (c0 + 1) * (c1 + 1) ∧
    (parametric_surface s e (c0, c1) f).normals.length =
      (c0 + 1) * (c1 + 1) ∧
    (parametric_surface s e (c0, c1) f).triangles.length = 2 * (c0 * c1) := by
  refine ⟨parametric_surface_positions_length s e c0 c1 f,
    parametric_surface_normals_length s e c0 c1 f, ?_⟩
  have h : (parametric_surface s e (c0, c1) f).triangles =
      surfaceTriangles c0 c1 := rfl
  rw [h, surfaceTriangles_length]

/-- C6 (counterexample): the 1×1 grid has `2*1*1 = 2` triangles, and its
wireframe index buffer has `12` entries — each triangle contributes six
indices (`[t0, t1, t1, t2, t2, t0]`), so a `2*m*n`-triangle list yields
`12*m*n` indices, not the claimed `6*m*n`. -/
theorem wireframe_index_count_differs_from_claim :
    (parametric_surface ((0 : ℝ), 0) ((1 : ℝ), 1) (1, 1) plane).triangles.length
        = 2 * (1 * 1) ∧
    (surface_to_wireframe
        (parametric_surface ((0 : ℝ), 0) ((1 : ℝ), 1) (1, 1) plane)
        identity).indices.length = 12 ∧
    (12 : ℕ) ≠ 6 * (1 * 1) := by
  refine ⟨by decide, ?_, by decide⟩
  have hw : (surface_to_wireframe
      (parametric_surface ((0 : ℝ), 0) ((1 : ℝ), 1) (1, 1) plane)
      identity).indices = wireframe_indices (surfaceTriangles 1 1) := rfl
  rw [hw]
  decide

/-- C6 (amended): a triangle list with `2*m*n` triangles yields a wireframe
index buffer of exactly `12*m*n` indices — six per triangle (three
undeduplicated edges, two endpoints each). -/
theorem wireframe_index_count (S : Surface) (g : Vec2 → Vec2) (m n : ℕ)
    (h : S.triangles.length = 2 * (m * n)) :
    (surface_to_wireframe S g).indices.length = 12 * (m * n) := by
  have hw : (surface_to_wireframe S g).indices = wireframe_indices S.triangles :=
    rfl
  rw [hw, wireframe_indices_length, h]
  ring

/-- C6 (witness): the 1×1 plane surface has `2` triangles and its wireframe
mesh has `12` indices. -/
theorem wireframe_index_count_witness :
    (parametric_surface ((0 : ℝ), 0) ((1 : ℝ), 1) (1, 1) plane).triangles.length
        = 2 * (1 * 1) ∧
    (surface_to_wireframe
        (parametric_surface ((0 : ℝ), 0) ((1 : ℝ), 1) (1, 1) plane)
        identity).indices.length = 12 * (1 * 1) := by
  have h : (parametric_surface ((0 : ℝ), 0) ((1 : ℝ), 1) (1, 1)
      plane).triangles.length = 2 * (1 * 1) := by decide
  exact ⟨h, wireframe_index_count _ identity 1 1 h⟩

/-- C4 (counterexample): sampling the constant map (all four cross products
zero, a fully degenerate point) stores the non-finite result of
`normalize`-by-zero (modelled `none`) as the first normal — not the zero
vector. -/
theorem degenerate_normal_is_nan :
    (parametric_surface ((0 : ℝ), 0) ((1 : ℝ), 1) (1, 1)
        (fun _ => ⟨0, 0, 0⟩)).normals[0]? = some none ∧
    (none : Option Vec3) ≠ some (0 : Vec3) := by
  constructor
  · have h := parametric_surface_normals_getElem ((0 : ℝ), 0) ((1 : ℝ), 1) 1 1
      (fun _ => ⟨0, 0, 0⟩) 0 0 (by omega) (by omega)
    simpa [normalAt, crossSum_const, vec3_normalize_zero_mk] using h
  · simp

/-- C4 (amended): at a grid node where the sum of the four finite-difference
cross products is exactly zero, the stored normal is the non-finite result
of normalizing the zero vector (modelled `none`), not the zero vector; the
code calls `normalize` unconditionally. -/
theorem degenerate_normal_stored_nonfinite (s e : Vec2) (c0 c1 i j : ℕ)
    (f : Vec2 → Vec3) (hi : i ≤ c0) (hj : j ≤ c1)
    (hdeg : crossSum s e (c0, c1) f i j = 0) :
    (parametric_surface s e (c0, c1) f).normals[i * (c1 + 1) + j]? =
      some none := by
  rw [parametric_surface_normals_getElem s e c0 c1 f i j hi hj]
  unfold normalAt
  rw [hdeg, vec3_normalize_zero]

/-- C4 (witness): the amended statement applied to the constant map at node
`(0, 0)` of the `(1, 1)`-resolution sampling of `[0,1]²`. -/
theorem degenerate_normal_stored_nonfinite_witness :
    crossSum ((0 : ℝ), 0) ((1 : ℝ), 1) (1, 1) (fun _ => ⟨0, 0, 0⟩) 0 0 = 0 ∧
    (parametric_surface ((0 : ℝ), 0) ((1 : ℝ), 1) (1, 1)
        (fun _ => ⟨0, 0, 0⟩)).normals[0]? = some none := by
  refine ⟨crossSum_const _ _ _ _ 0 0, ?_⟩
  simpa using degenerate_normal_stored_nonfinite ((0 : ℝ), 0) ((1 : ℝ), 1) 1 1
    0 0 (fun _ => ⟨0, 0, 0⟩) (by omega) (by omega) (crossSum_const _ _ _ _ 0 0)

/-- C7 (amended): the stored normal of `src/surface.rs` depends only on the
values of the surface map at the node and at its four neighbours offset by
`eps = min(delta_x, delta_y) / 1000` along each parameter axis: two maps
agreeing at those five points get identical stored normals. -/
theorem surface_normal_probes_eps (s e : Vec2) (c0 c1 i j : ℕ)
    (f g : Vec2 → Vec3) (hi : i ≤ c0) (hj : j ≤ c1)
    (h0 : f (nodePoint s e (c0, c1) i j) = g (nodePoint s e (c0, c1) i j))
    (h1 : f ((nodePoint s e (c0, c1) i j).1 + sampleEps s e (c0, c1),
        (nodePoint s e (c0, c1) i j).2) =
      g ((nodePoint s e (c0, c1) i j).1 + sampleEps s e (c0, c1),
        (nodePoint s e (c0, c1) i j).2))
    (h2 : f ((nodePoint s e (c0, c1) i j).1,
        (nodePoint s e (c0, c1) i j).2 + sampleEps s e (c0, c1)) =
      g ((nodePoint s e (c0, c1) i j).1,
        (nodePoint s e (c0, c1) i j).2 + sampleEps s e (c0, c1)))
    (h3 : f ((nodePoint s e (c0, c1) i j).1 - sampleEps s e (c0, c1),
        (nodePoint s e (c0, c1) i j).2) =
      g ((nodePoint s e (c0, c1) i j).1 - sampleEps s e (c0, c1),
        (nodePoint s e (c0, c1) i j).2))
    (h4 : f ((nodePoint s e (c0, c1) i j).1,
        (nodePoint s e (c0, c1) i j).2 - sampleEps s e (c0, c1)) =
      g ((nodePoint s e (c0, c1) i j).1,
        (nodePoint s e (c0, c1) i j).2 - sampleEps s e (c0, c1))) :
    (parametric_surface s e (c0, c1) f).normals[i * (c1 + 1) + j]? =
      (parametric_surface s e (c0, c1) g).normals[i * (c1 + 1) + j]? := by
  rw [parametric_surface_normals_getElem s e c0 c1 f i j hi hj,
    parametric_surface_normals_getElem s e c0 c1 g i j hi hj]
  simp only [normalAt, crossSum]
  rw [h0, h1, h2, h3, h4]

/-- C7 (witness): `probeBump` and the constant zero map agree at the node
`(0, 0)` of the `(1, 1)`-resolution sampling of `[0,1]²` and at its four
`eps = 1/1000` neighbours, so their stored normals there coincide. -/
theorem surface_normal_probes_eps_witness :
    probeBump ((0 : ℝ), (0 : ℝ)) = ⟨0, 0, 0⟩ ∧
    probeBump ((1 / 1000 : ℝ), (0 : ℝ)) = ⟨0, 0, 0⟩ ∧
    probeBump ((-(1 / 1000) : ℝ), (0 : ℝ)) = ⟨0, 0, 0⟩ ∧
    probeBump ((0 : ℝ), (1 / 1000 : ℝ)) = ⟨0, 0, 0⟩ ∧
    probeBump ((0 : ℝ), (-(1 / 1000) : ℝ)) = ⟨0, 0, 0⟩ ∧
    (parametric_surface ((0 : ℝ), 0) ((1 : ℝ), 1) (1, 1) probeBump).normals[0]?
      = (parametric_surface ((0 : ℝ), 0) ((1 : ℝ), 1) (1, 1)
        (fun _ => ⟨0, 0, 0⟩)).normals[0]? := by
  have hnode : nodePoint ((0 : ℝ), 0) ((1 : ℝ), 1) (1, 1) 0 0 =
      ((0 : ℝ), (0 : ℝ)) := by
    simp [nodePoint, delta_x, delta_y]
  have heps : sampleEps ((0 : ℝ), 0) ((1 : ℝ), 1) (1, 1) = 1 / 1000 := by
    norm_num [sampleEps, delta_x, delta_y]
  refine ⟨?_, ?_, ?_, ?_, ?_, ?_⟩
  · norm_num [probeBump, Prod.ext_iff]
  · norm_num [probeBump, Prod.ext_iff]
  · norm_num [probeBump, Prod.ext_iff]
  · norm_num [probeBump, Prod.ext_iff]
  · norm_num [probeBump, Prod.ext_iff]
  · have h := surface_normal_probes_eps ((0 : ℝ), 0) ((1 : ℝ), 1) 1 1 0 0
      probeBump (fun _ => ⟨0, 0, 0⟩) (by omega) (by omega)
      (by rw [hnode]; norm_num [probeBump, Prod.ext_iff])
      (by rw [hnode, heps]; norm_num [probeBump, Prod.ext_iff])
      (by rw [hnode, heps]; norm_num [probeBump, Prod.ext_iff])
      (by rw [hnode, heps]; norm_num [probeBump, Prod.ext_iff])
      (by rw [hnode, heps]; norm_num [probeBump, Prod.ext_iff])
    simpa using h

/-- C7 (counterexample): the earlier sampler of `src/main.rs` probes at the
full grid step, not at `eps = min(grid steps)/1000`: with `count = 1` the
map `probeBump` agrees with the constant zero map at the node `(0, 0)` and
at all four of its `1/1000`-offset neighbours, yet the two samplers store
different normals there (`(0,0,1)` versus the non-finite `none`). -/
theorem main_normal_probes_grid_step :
    probeBump ((0 : ℝ), (0 : ℝ)) = ⟨0, 0, 0⟩ ∧
    probeBump ((1 / 1000 : ℝ), (0 : ℝ)) = ⟨0, 0, 0⟩ ∧
    probeBump ((-(1 / 1000) : ℝ), (0 : ℝ)) = ⟨0, 0, 0⟩ ∧
    probeBump ((0 : ℝ), (1 / 1000 : ℝ)) = ⟨0, 0, 0⟩ ∧
    probeBump ((0 : ℝ), (-(1 / 1000) : ℝ)) = ⟨0, 0, 0⟩ ∧
    mainNormalAt 1 probeBump 0 0 = some ⟨0, 0, 1⟩ ∧
    mainNormalAt 1 (fun _ => ⟨0, 0, 0⟩) 0 0 = none := by
  refine ⟨?_, ?_, ?_, ?_, ?_, ?_, ?_⟩
  · norm_num [probeBump, Prod.ext_iff]
  · norm_num [probeBump, Prod.ext_iff]
  · norm_num [probeBump, Prod.ext_iff]
  · norm_num [probeBump, Prod.ext_iff]
  · norm_num [probeBump, Prod.ext_iff]
  · have hsum : mainNormalAt 1 probeBump 0 0 = Vec3.normalize ⟨0, 0, 1⟩ := by
      norm_num [mainNormalAt, probeBump, Prod.ext_iff, main_cross, Vec3.cross]
    rw [hsum]
    norm_num [Vec3.normalize, Vec3.length, Vec3.length_squared]
  · norm_num [mainNormalAt, main_cross, Vec3.cross, vec3_normalize_zero_mk]

/-- C8: if `p` is among the zeros of a `Mero` and not among its poles, the
rational function evaluates to `0` at `p`, and the derived texture
coordinate `poly` is `(0, 0)`. -/
theorem mero_zero_eval (ps : Mero) (p : ℂ) (hz : p ∈ ps.zeros)
    (hp : p ∉ ps.poles) :
    mero_val ps p = 0 ∧ poly ps (from_complex p) = ((0 : ℝ), (0 : ℝ)) := by
  have hval : mero_val ps p = 0 := by
    unfold mero_val
    rw [foldl_mul_map (fun q => p - q) ps.zeros ps.factor]
    have hzero : ((ps.zeros.map fun q => p - q).prod) = 0 := by
      refine List.prod_eq_zero ?_
      exact List.mem_map.mpr ⟨p, hz, sub_self p⟩
    rw [hzero, mul_zero, foldl_mul_map (fun q => 1 / (p - q)) ps.poles 0,
      zero_mul]
  refine ⟨hval, ?_⟩
  unfold poly
  have hc : to_complex (from_complex p) = p := rfl
  rw [hc, hval]
  unfold to_uv
  simp

/-- C8 (witness): for the `Mero` with factor `1`, zeros `[2]`, poles `[3]`,
evaluation at `2` gives `0` and the texture coordinate `(0, 0)`. -/
theorem mero_zero_eval_witness :
    (2 : ℂ) ∈ meroEx.zeros ∧ (2 : ℂ) ∉ meroEx.poles ∧
    mero_val meroEx 2 = 0 ∧ poly meroEx (from_complex 2) = ((0 : ℝ), (0 : ℝ)) := by
  have hz : (2 : ℂ) ∈ meroEx.zeros := by simp [meroEx]
  have hp : (2 : ℂ) ∉ meroEx.poles := by
    simp only [meroEx, List.mem_singleton]
    norm_num
  exact ⟨hz, hp, mero_zero_eval meroEx 2 hz hp⟩

/-- C9: both inverse-stereographic charts land exactly on the unit sphere:
the squared Euclidean norm of `south_chart z` and of `north_chart z` is `1`
for every `z`. -/
theorem charts_on_unit_sphere (z : Vec2) :
    (south_chart z).length_squared = 1 ∧ (north_chart z).length_squared = 1 := by
  have hpos : (0 : ℝ) < 1 + (z.1 * z.1 + z.2 * z.2) := by
    nlinarith [mul_self_nonneg z.1, mul_self_nonneg z.2]
  constructor
  · simp only [south_chart, Vec3.length_squared]
    field_simp
    ring
  · simp only [north_chart, Vec3.length_squared]
    field_simp
    ring

/-- C10: the uv map named `identity` is not the identity map: it equals
`to_uv` composed with `to_complex`, sending every `z` to `(0, |z|)` — the
first coordinate is fixed at `0` and the argument of `z` is discarded. -/
theorem identity_is_radius_map :
    (∀ z : Vec2, identity z = ((0 : ℝ), Real.sqrt (z.1 ^ 2 + z.2 ^ 2))) ∧
    identity ((1 : ℝ), (0 : ℝ)) ≠ ((1 : ℝ), (0 : ℝ)) ∧
    ∀ z : Vec2, identity z = to_uv (to_complex z) := by
  have habs : ∀ z : Vec2, Complex.abs (to_complex z) =
      Real.sqrt (z.1 ^ 2 + z.2 ^ 2) := by
    intro z
    rw [Complex.abs_apply]
    congr 1
    simp [to_complex, Complex.normSq_mk]
    ring
  refine ⟨fun z => ?_, ?_, fun z => rfl⟩
  · unfold identity to_uv
    rw [habs]
  · unfold identity to_uv
    rw [habs ((1 : ℝ), (0 : ℝ))]
    norm_num [Prod.ext_iff]
